import Mathlib

/-!
Shallow embedding of the graphene decorator layer (`src/types/definitions.ts`,
here `src/unnamed/part_001`, and `src/definitions/structures.ts`), a
decorator-based annotation layer over an external GraphQL schema library.

The reflection registry (`getGraphQLType`, `setGraphQLType`, `getFields`,
`mountFields`, ...) and the `Schema` class are part of this repository but are
not among the provided source files; those definitions are modelled from the
spec and marked `Modelled from the spec:` in their doc comments.  Everything
else is translated from the TypeScript source.
-/

namespace Graphene

/-- Property/field names (JS object keys). -/
abbrev Key := String

/-- Plain JavaScript values as they occur in this code base (enum member
values, argument default values, resolver inputs/outputs).  `undefined`
doubles for `null`, which the repository never distinguishes. -/
inductive JSVal where
  | undefined
  | str (s : String)
  | num (n : Int)
  | bool (b : Bool)
deriving DecidableEq, Repr

/-- JavaScript truthiness of a `JSVal`, used to model the `||` operator. -/
def JSVal.truthy : JSVal → Bool
  | .undefined => false
  | .str s => s ≠ ""
  | .num n => n ≠ 0
  | .bool b => b

/-- The JavaScript `a || b` on values. -/
def jsOr (a b : JSVal) : JSVal :=
  if a.truthy then a else b

/-- The JavaScript `a || b` where `a` is an optional string (absent or
possibly empty, both falsy) and `b` an optional string. -/
def jsOrS : Option String → Option String → Option String
  | some a, b => if a = "" then b else some a
  | none, b => b

/-- The JavaScript `opts.name || target.name` pattern: an optional (possibly
empty, hence falsy) configured name falling back to the class name. -/
def jsOrName : Option String → String → String
  | some a, b => if a = "" then b else a
  | none, b => b

/-- Lookup in an association list representing a JS object (first binding
wins; the lists we build never carry duplicate keys). -/
def alook {α : Type _} : List (Key × α) → Key → Option α
  | [], _ => none
  | (k, v) :: rest, key => if k = key then some v else alook rest key

/-- JS object key assignment `m[k] = v`: an existing key keeps its insertion
position and gets the new value, a fresh key is appended. -/
def jsInsert {α : Type _} (m : List (Key × α)) (k : Key) (v : α) : List (Key × α) :=
  if (alook m k).isSome then
    m.map (fun p => if p.1 = k then (k, v) else p)
  else
    m ++ [(k, v)]

/-- JS object spread `{...a, ...b}`: assign every binding of `b`, in order,
into `a`. -/
def jsSpread {α : Type _} (a b : List (Key × α)) : List (Key × α) :=
  b.foldl (fun acc p => jsInsert acc p.1 p.2) a

/-- Last binding of a key in an association list (the one JS assignment order
leaves in force when the list carries duplicates). -/
def lookupLast {α : Type _} : List (Key × α) → Key → Option α
  | [], _ => none
  | (k, v) :: rest, key =>
    match lookupLast rest key with
    | some v₂ => some v₂
    | none => if k = key then some v else none

/-- Value stored at a property of a decorated prototype or class: either a
plain value or a method.  A method receives (`this`, args, context, info),
matching `targetResolver.call(root, args, context, info)`. -/
inductive PropVal where
  | val (v : JSVal)
  | fn (f : JSVal → JSVal → JSVal → JSVal → JSVal)

/-- Field resolver mounted into an external field config: either the wrapped
library's `defaultFieldResolver` or a function built by the `Field`
decorator. -/
inductive Resolver where
  | dflt
  | custom (f : JSVal → JSVal → JSVal → JSVal → JSVal)

/-- Run a resolver; the behaviour of the wrapped library's
`defaultFieldResolver` is the parameter `d`. -/
def runResolver (d : JSVal → JSVal → JSVal → JSVal → JSVal) :
    Resolver → JSVal → JSVal → JSVal → JSVal → JSVal
  | .dflt => d
  | .custom f => f

/-- External enum value config (`GraphQLEnumValueConfigMap` entry) as built by
the `EnumType` decorator. -/
structure EnumValue where
  value : JSVal
  description : Option String
  deprecationReason : Option String

/-- External argument config (`GraphQLArgumentConfig`) as built by the `Field`
decorator: `{type: newType, ...extra}`. -/
structure MountedArg (T : Type) where
  type : T
  description : Option String
  defaultValue : Option JSVal

/-- External field config as returned by an invoked field thunk
(lines 154-160 of the source). -/
structure MountedField (T : Type) where
  type : T
  args : List (Key × MountedArg T)
  description : Option String
  deprecationReason : Option String
  resolve : Resolver

/-- External input field config as returned by an invoked input-field thunk
(lines 185-191 of the source). -/
structure MountedInputField (T : Type) where
  type : T
  description : Option String
  deprecationReason : Option String
  defaultValue : JSVal

/-- External (wrapped-library) GraphQL type objects, as far as this repository
constructs or inspects them.  The `resolveType` callback of interface types
is not modelled (no claim concerns it). -/
inductive GQLType where
  | scalar (name : String)
  | enumT (name : String) (description : Option String)
      (values : List (Key × EnumValue))
  | object (name : String) (description : Option String)
      (interfaces : List GQLType) (fields : List (Key × MountedField GQLType))
  | interfaceT (name : String) (description : Option String)
      (fields : List (Key × MountedField GQLType))
  | inputObject (name : String) (description : Option String)
      (fields : List (Key × MountedInputField GQLType))
  | listT (ofType : GQLType)
  | nonNull (ofType : GQLType)

/-- The wrapped library's `isInputType`: scalars, enums, input objects and
wrappers of those. -/
def isInputType : GQLType → Bool
  | .scalar _ => true
  | .enumT _ _ _ => true
  | .inputObject _ _ _ => true
  | .listT t => isInputType t
  | .nonNull t => isInputType t
  | _ => false

/-- The wrapped library's `isOutputType`: scalars, enums, objects, interfaces
and wrappers of those. -/
def isOutputType : GQLType → Bool
  | .scalar _ => true
  | .enumT _ _ _ => true
  | .object _ _ _ _ => true
  | .interfaceT _ _ _ => true
  | .listT t => isOutputType t
  | .nonNull t => isOutputType t
  | _ => false

/-- The wrapped library's `instanceof GraphQLInterfaceType` test. -/
def isInterfaceType : GQLType → Bool
  | .interfaceT _ _ _ => true
  | _ => false

/-- Short renderings, used where the source interpolates a value into an
error message (`${argType}`). -/
def GQLType.shortName : GQLType → String
  | .scalar n => n
  | .enumT n _ _ => n
  | .object n _ _ _ => n
  | .interfaceT n _ _ => n
  | .inputObject n _ _ => n
  | .listT t => "[" ++ t.shortName ++ "]"
  | .nonNull t => t.shortName ++ "!"

/-- Type references handed to decorators: either a decorated class, referred
to by its name, or an already-constructed external type object. -/
inductive TypeRef where
  | cls (name : String)
  | direct (t : GQLType)

/-- Rendering of a type reference, standing for JS string interpolation of
the class or the external type object. -/
def TypeRef.shortName : TypeRef → String
  | .cls n => n
  | .direct t => t.shortName

/-- Modelled from the spec: the reflection registry's "mapping ... from class
to the already-mounted external type", keyed by class name. -/
abbrev Registry := List (String × GQLType)

/-- Modelled from the spec (`getGraphQLType`, from the missing reflection
module): resolve a decorator type reference, looking a decorated class up in
the registry and passing an already-external type through. -/
def getGraphQLType (reg : Registry) : TypeRef → Except String GQLType
  | .direct t => .ok t
  | .cls n =>
    match alook reg n with
    | some t => .ok t
    | none => .error ("Cannot get GraphQL type of " ++ n)

/-- Modelled from the spec (`setGraphQLType`, from the missing reflection
module): the registry "written once per class", associating a class with its
finalized external type. -/
def setGraphQLType (reg : Registry) (name : String) (t : GQLType) : Registry :=
  jsInsert reg name t

/-- A decorated class together with its prototype, as the decorators see it:
its constructor name, the prototype's properties (`target[key]`), its static
own properties (`Object.getOwnPropertyNames` order, values included), and the
per-property / per-class description and deprecation metadata written by the
`@description` / `@deprecated` decorators (modelled from the spec as part of
the missing reflection module). -/
structure Target where
  name : String
  props : List (Key × PropVal)
  statics : List (Key × JSVal)
  classDescription : Option String
  descriptions : List (Key × String)
  deprecations : List (Key × String)

/-- Modelled from the spec (`getDescription(target, key)`). -/
def getDescription (t : Target) (key : Key) : Option String :=
  alook t.descriptions key

/-- Modelled from the spec (`getDeprecationReason(target, key)`). -/
def getDeprecationReason (t : Target) (key : Key) : Option String :=
  alook t.deprecations key

/-- Argument entry of a `Field` config's `args` map: either a
`{type, description, defaultValue}` record (as produced by the `Argument`
helper) or a bare type. -/
inductive ArgDecl where
  | record (type : TypeRef) (description : Option String) (defaultValue : Option JSVal)
  | bare (type : TypeRef)

/-- Helper that eases the creation of arguments: `Argument(String, "The
description", "value")` becomes `{type, description, defaultValue}`. -/
def Argument (type : TypeRef) (description : Option String)
    (defaultValue : Option JSVal) : ArgDecl :=
  .record type description defaultValue

/-- Config object accepted by the `Field` decorator. -/
structure FieldConfig where
  args : Option (List (Key × ArgDecl))
  description : Option String
  deprecationReason : Option String

/-- Config object accepted by the `InputField` decorator. -/
structure InputFieldConfig where
  defaultValue : JSVal
  description : Option String
  deprecationReason : Option String

/-- Pending field thunk stored by the `Field` decorator: the data the closure
at lines 106-161 of the source captures (`type`, `config`, `target`, `key`). -/
structure FieldThunk where
  type : TypeRef
  config : FieldConfig
  target : Target
  key : Key

/-- Pending input-field thunk stored by the `InputField` decorator
(lines 179-192 of the source). -/
structure InputFieldThunk where
  type : TypeRef
  config : InputFieldConfig
  target : Target
  key : Key

/-- The duplicate-field error message, `Field ${key} is already defined in
${_class}.` (the class rendered by its name). -/
def dupFieldMsg (key : Key) (clsName : String) : String :=
  "Field " ++ key ++ " is already defined in " ++ clsName ++ "."

/-- The `Field` decorator applied to property `key` of `target`, acting on
the class's pending field map: throw on a duplicate name, otherwise record
one thunk under the name.  No type is resolved here; the thunk body is
`invokeFieldThunk` below. -/
def Field (type : TypeRef) (config : FieldConfig) (target : Target) (key : Key)
    (fields : List (Key × FieldThunk)) : Except String (List (Key × FieldThunk)) :=
  if (alook fields key).isSome then
    .error (dupFieldMsg key target.name)
  else
    .ok (fields ++ [(key, ⟨type, config, target, key⟩)])

/-- The `InputField` decorator applied to property `key` of `target`, acting
on the class's pending input-field map. -/
def InputField (type : TypeRef) (config : InputFieldConfig) (target : Target)
    (key : Key) (fields : List (Key × InputFieldThunk)) :
    Except String (List (Key × InputFieldThunk)) :=
  if (alook fields key).isSome then
    .error (dupFieldMsg key target.name)
  else
    .ok (fields ++ [(key, ⟨type, config, target, key⟩)])

/-- The declared type of an argument entry (`argType` at lines 125/128). -/
def ArgDecl.argType : ArgDecl → TypeRef
  | .record t _ _ => t
  | .bare t => t

/-- The non-input-argument error message, `Field argument ${argKey} expected
to be Input type. Received: ${argType}.`. -/
def argNotInputMsg (argKey : Key) (argType : TypeRef) : String :=
  "Field argument " ++ argKey ++ " expected to be Input type. Received: "
    ++ argType.shortName ++ "."

/-- Resolution of one argument entry (lines 114-141 of the source): a record
contributes `extra = {description}` — its `defaultValue` is not copied — and
a bare type contributes `extra = {}`; the declared type is resolved and must
be an input type. -/
def resolveArg (reg : Registry) (argKey : Key) (arg : ArgDecl) :
    Except String (MountedArg GQLType) :=
  match getGraphQLType reg arg.argType with
  | .error e => .error e
  | .ok newType =>
    if isInputType newType then
      match arg with
      | .record _ d _ => .ok ⟨newType, d, none⟩
      | .bare _ => .ok ⟨newType, none, none⟩
    else
      .error (argNotInputMsg argKey arg.argType)

/-- Resolution of a whole `args` map, in insertion order, stopping at the
first failing entry (the `for (argKey in args)` loop). -/
def resolveArgs (reg : Registry) :
    List (Key × ArgDecl) → Except String (List (Key × MountedArg GQLType))
  | [] => .ok []
  | (k, a) :: rest =>
    match resolveArg reg k a with
    | .error e => .error e
    | .ok m =>
      match resolveArgs reg rest with
      | .error e => .error e
      | .ok ms => .ok ((k, m) :: ms)

/-- The resolver mounted for a field: a wrapper calling the prototype method
with `this` bound to the root when `target[key]` is a function, the wrapped
library's `defaultFieldResolver` otherwise (lines 142-153). -/
def mkResolver : Option PropVal → Resolver
  | some (.fn f) => .custom (fun root args context info => f root args context info)
  | _ => .dflt

/-- Body of a pending field thunk (lines 106-161): resolve the declared type,
require it to be an output type, resolve the arguments, and assemble the
external field config. -/
def invokeFieldThunk (reg : Registry) (th : FieldThunk) :
    Except String (MountedField GQLType) :=
  match getGraphQLType reg th.type with
  | .error e => .error e
  | .ok t =>
    if isOutputType t then
      match resolveArgs reg (th.config.args.getD []) with
      | .error e => .error e
      | .ok fieldArgs =>
        .ok ⟨t, fieldArgs, getDescription th.target th.key,
             getDeprecationReason th.target th.key,
             mkResolver (alook th.target.props th.key)⟩
    else
      .error "Type is not output"

/-- The value stored at a prototype property, as a `JSVal` (a method does not
serve as an input-field default; modelled as `undefined`). -/
def propToVal : Option PropVal → JSVal
  | some (.val v) => v
  | _ => .undefined

/-- Body of a pending input-field thunk (lines 179-192): resolve the declared
type, require it to be an input type, and assemble the external input field
config, `config` entries taking precedence (by JS `||`) over prototype
metadata. -/
def invokeInputFieldThunk (reg : Registry) (th : InputFieldThunk) :
    Except String (MountedInputField GQLType) :=
  match getGraphQLType reg th.type with
  | .error e => .error e
  | .ok t =>
    if isInputType t then
      .ok ⟨t,
           jsOrS th.config.description (getDescription th.target th.key),
           jsOrS th.config.deprecationReason (getDeprecationReason th.target th.key),
           jsOr th.config.defaultValue (propToVal (alook th.target.props th.key))⟩
    else
      .error "Type is not input"

/-- Modelled from the spec: the reflection registry's "mapping from class to
pending field thunks" (and input-field thunks), kept per class name, next to
the mounted-type registry. -/
structure ClassEnv where
  reg : Registry
  fieldsOf : List (String × List (Key × FieldThunk))
  inputFieldsOf : List (String × List (Key × InputFieldThunk))

/-- Modelled from the spec (`getFields(_class)`): the pending field map of a
class, empty when none has been recorded. -/
def getFields (env : ClassEnv) (t : Target) : List (Key × FieldThunk) :=
  (alook env.fieldsOf t.name).getD []

/-- Modelled from the spec: `getFields` applied to an entry of
`opts.interfaces`, which is a class reference; an already-external type
carries no pending thunks. -/
def getFieldsRef (env : ClassEnv) : TypeRef → List (Key × FieldThunk)
  | .cls n => (alook env.fieldsOf n).getD []
  | .direct _ => []

/-- Modelled from the spec (`getInputFields(_class)`). -/
def getInputFields (env : ClassEnv) (t : Target) : List (Key × InputFieldThunk) :=
  (alook env.inputFieldsOf t.name).getD []

/-- Modelled from the spec (`mountFields`): "all pending thunks are invoked
in declaration order", the first failure aborting the decoration. -/
def mountFields (reg : Registry) :
    List (Key × FieldThunk) → Except String (List (Key × MountedField GQLType))
  | [] => .ok []
  | (k, th) :: rest =>
    match invokeFieldThunk reg th with
    | .error e => .error e
    | .ok f =>
      match mountFields reg rest with
      | .error e => .error e
      | .ok fs => .ok ((k, f) :: fs)

/-- Modelled from the spec (`mountInputFields`). -/
def mountInputFields (reg : Registry) :
    List (Key × InputFieldThunk) → Except String (List (Key × MountedInputField GQLType))
  | [] => .ok []
  | (k, th) :: rest =>
    match invokeInputFieldThunk reg th with
    | .error e => .error e
    | .ok f =>
      match mountInputFields reg rest with
      | .error e => .error e
      | .ok fs => .ok ((k, f) :: fs)

/-- Config object accepted by the `ObjectType` decorator. -/
structure ObjectTypeConfig where
  name : Option String
  description : Option String
  interfaces : Option (List TypeRef)

/-- Resolution of `opts.interfaces` (lines 207-215): each entry's registered
external type must be a `GraphQLInterfaceType`, otherwise `Provided interface
is not valid` is thrown. -/
def resolveInterfaces (reg : Registry) : List TypeRef → Except String (List GQLType)
  | [] => .ok []
  | i :: rest =>
    match getGraphQLType reg i with
    | .error e => .error e
    | .ok t =>
      if isInterfaceType t then
        match resolveInterfaces reg rest with
        | .error e => .error e
        | .ok ts => .ok (t :: ts)
      else
        .error "Provided interface is not valid"

/-- The merge of all inherited interface field maps (lines 217-226): the
listed interfaces' pending field maps spread one after another, in list
order. -/
def allInterfaceFields (env : ClassEnv) (opts : ObjectTypeConfig) :
    List (Key × FieldThunk) :=
  (opts.interfaces.getD []).foldl (fun acc i => jsSpread acc (getFieldsRef env i)) []

/-- The field map used to build the external object type (lines 228-233):
first the fields inherited from the interfaces, then the fields of the
current type. -/
def objectFieldMap (env : ClassEnv) (opts : ObjectTypeConfig) (target : Target) :
    List (Key × FieldThunk) :=
  jsSpread (allInterfaceFields env opts) (getFields env target)

/-- The `ObjectType` class decorator (lines 201-248): validate the declared
interfaces, merge inherited interface fields before own fields, mount the
result, register the constructed external object type for the class, and
return the class itself.  (`assertFields` is part of the missing reflection
module; the spec attributes no error to it, so it is modelled as a check that
always passes.) -/
def ObjectType (env : ClassEnv) (opts : ObjectTypeConfig) (target : Target) :
    Except String (Registry × Target) :=
  match resolveInterfaces env.reg (opts.interfaces.getD []) with
  | .error e => .error e
  | .ok interfaces =>
    match mountFields env.reg (objectFieldMap env opts target) with
    | .error e => .error e
    | .ok mounted =>
      .ok (setGraphQLType env.reg target.name
             (.object (jsOrName opts.name target.name)
                      (jsOrS opts.description target.classDescription)
                      interfaces mounted),
           target)

/-- Config object accepted by the `InterfaceType` decorator (its
`resolveType` callback is not modelled; no claim concerns it). -/
structure InterfaceTypeConfig where
  name : Option String
  description : Option String

/-- The `InterfaceType` class decorator (lines 256-286): mount the class's
own pending fields, register the constructed external interface type, and
return the class itself. -/
def InterfaceType (env : ClassEnv) (opts : InterfaceTypeConfig) (target : Target) :
    Except String (Registry × Target) :=
  match mountFields env.reg (getFields env target) with
  | .error e => .error e
  | .ok mounted =>
    .ok (setGraphQLType env.reg target.name
           (.interfaceT (jsOrName opts.name target.name)
                        (jsOrS opts.description target.classDescription)
                        mounted),
         target)

/-- Config object accepted by the `InputObjectType` decorator. -/
structure InputObjectTypeConfig where
  name : Option String
  description : Option String

/-- The `InputObjectType` class decorator (lines 293-311). -/
def InputObjectType (env : ClassEnv) (opts : InputObjectTypeConfig) (target : Target) :
    Except String (Registry × Target) :=
  match mountInputFields env.reg (getInputFields env target) with
  | .error e => .error e
  | .ok mounted =>
    .ok (setGraphQLType env.reg target.name
           (.inputObject (jsOrName opts.name target.name)
                         (jsOrS opts.description target.classDescription)
                         mounted),
         target)

/-- The own properties a plain `class {}` already carries; removed from every
enum class's static properties (lines 313-323). -/
def BaseClassProperties : List String := ["length", "name", "prototype"]

/-- Static property names of a class with the properties automatically
included in a plain class (`length`, `name`, `prototype`) removed
(lines 319-323). -/
def getStaticProperties (statics : List (Key × JSVal)) : List Key :=
  (statics.map Prod.fst).filter (fun n => ¬ BaseClassProperties.contains n)

/-- Config object accepted by the `EnumType` decorator. -/
structure EnumTypeConfig where
  name : Option String
  description : Option String

/-- The enum value map built by `EnumType` (lines 335-342): one entry per
remaining static property, carrying its value and its per-property
metadata. -/
def enumValues (target : Target) : List (Key × EnumValue) :=
  (getStaticProperties target.statics).map (fun n =>
    (n, ⟨(alook target.statics n).getD .undefined,
         getDescription target n,
         getDeprecationReason target n⟩))

/-- The `EnumType` class decorator (lines 330-352): collect the class's own
static properties into an enum value map, register the constructed external
enum type, and return the class itself.  It throws nothing. -/
def EnumType (reg : Registry) (opts : EnumTypeConfig) (target : Target) :
    Registry × Target :=
  (setGraphQLType reg target.name
     (.enumT (jsOrName opts.name target.name)
             (jsOrS opts.description target.classDescription)
             (enumValues target)),
   target)

/-- The assembled schema handed to the wrapped library: its query type and
optional mutation type. -/
structure GQLSchema where
  query : GQLType
  mutation : Option GQLType

/-- Configuration of the schema root object: `Query`/`Mutation` class
references. -/
structure SchemaConfig where
  query : TypeRef
  mutation : Option TypeRef

/-- The wrapped library's printer and executor, abstract: this repository
only calls them. -/
structure WrappedLib where
  printSchema : GQLSchema → String
  execute : GQLSchema → String → JSVal

/-- Modelled from the spec (the missing `Schema` class): "a root object
aggregates Query/Mutation class references into a schema object", resolving
them through the registry. -/
def schemaAssemble (reg : Registry) (cfg : SchemaConfig) : Except String GQLSchema :=
  match getGraphQLType reg cfg.query with
  | .error e => .error e
  | .ok q =>
    match cfg.mutation with
    | none => .ok ⟨q, none⟩
    | some m =>
      match getGraphQLType reg m with
      | .error e => .error e
      | .ok mt => .ok ⟨q, some mt⟩

/-- Modelled from the spec: the schema object's `toString()` "simply
delegates to the wrapped library's printer". -/
def schemaToString (lib : WrappedLib) (s : GQLSchema) : String :=
  lib.printSchema s

/-- Modelled from the spec: the schema object's `execute(queryString)`
"simply delegates to the wrapped library's executor". -/
def schemaExecute (lib : WrappedLib) (s : GQLSchema) (queryString : String) : JSVal :=
  lib.execute s queryString

/-! Lemmas about the JS-object association-list operations. -/

theorem alook_nil {α : Type _} (k : Key) : alook ([] : List (Key × α)) k = none := rfl

theorem alook_cons {α : Type _} (a k : Key) (b : α) (rest : List (Key × α)) :
    alook ((a, b) :: rest) k = if a = k then some b else alook rest k := rfl

theorem lookupLast_cons {α : Type _} (a k : Key) (b : α) (rest : List (Key × α)) :
    lookupLast ((a, b) :: rest) k =
      match lookupLast rest k with
      | some v₂ => some v₂
      | none => if a = k then some b else none := rfl

theorem alook_map_keep {α : Type _} (k k₂ : Key) (v : α) (m : List (Key × α))
    (hne : k ≠ k₂) :
    alook (m.map (fun p => if p.1 = k then (k, v) else p)) k₂ = alook m k₂ := by
  induction m with
  | nil => rfl
  | cons p rest ih =>
    obtain ⟨a, b⟩ := p
    by_cases ha : a = k
    · have ha₂ : ¬ a = k₂ := fun h => hne (ha.symm.trans h)
      rw [List.map_cons,
          show (if ((a, b) : Key × α).1 = k then (k, v) else (a, b)) = (k, v) from
            if_pos ha,
          alook_cons, alook_cons, if_neg hne, if_neg ha₂, ih]
    · rw [List.map_cons,
          show (if ((a, b) : Key × α).1 = k then (k, v) else (a, b)) = (a, b) from
            if_neg ha,
          alook_cons, alook_cons, ih]

theorem jsInsert_cons_ne {α : Type _} (a k : Key) (b v : α) (rest : List (Key × α))
    (hne : a ≠ k) :
    jsInsert ((a, b) :: rest) k v = (a, b) :: jsInsert rest k v := by
  have h1 : alook ((a, b) :: rest) k = alook rest k := by
    rw [alook_cons, if_neg hne]
  by_cases h : (alook rest k).isSome
  · rw [jsInsert, jsInsert, h1, if_pos h, if_pos h, List.map_cons,
        show (if ((a, b) : Key × α).1 = k then (k, v) else (a, b)) = (a, b) from
          if_neg hne]
  · rw [jsInsert, jsInsert, h1, if_neg h, if_neg h, List.cons_append]

theorem alook_jsInsert {α : Type _} (m : List (Key × α)) (k k₂ : Key) (v : α) :
    alook (jsInsert m k v) k₂ = if k = k₂ then some v else alook m k₂ := by
  induction m with
  | nil => rfl
  | cons p rest ih =>
    obtain ⟨a, b⟩ := p
    by_cases ha : a = k
    · have hsome : (alook ((a, b) :: rest) k).isSome := by
        rw [alook_cons, if_pos ha]
        rfl
      rw [jsInsert, if_pos hsome, List.map_cons,
          show (if ((a, b) : Key × α).1 = k then (k, v) else (a, b)) = (k, v) from
            if_pos ha,
          alook_cons]
      by_cases hk : k = k₂
      · rw [if_pos hk, if_pos hk]
      · have ha₂ : ¬ a = k₂ := fun h => hk (ha.symm.trans h)
        rw [if_neg hk, if_neg hk, alook_map_keep k k₂ v rest hk, alook_cons,
            if_neg ha₂]
    · rw [jsInsert_cons_ne a k b v rest ha, alook_cons, ih, alook_cons]
      by_cases hk : k = k₂
      · have ha₂ : ¬ a = k₂ := fun h => ha (h.trans hk.symm)
        rw [if_neg ha₂, if_pos hk, if_pos hk]
      · rw [if_neg hk, if_neg hk]

theorem alook_jsSpread {α : Type _} (a b : List (Key × α)) (k : Key) :
    alook (jsSpread a b) k =
      match lookupLast b k with
      | some v => some v
      | none => alook a k := by
  induction b generalizing a with
  | nil => rfl
  | cons p rest ih =>
    obtain ⟨k₁, v₁⟩ := p
    show alook (jsSpread (jsInsert a k₁ v₁) rest) k = _
    rw [ih, lookupLast_cons]
    cases hl : lookupLast rest k with
    | some v => rfl
    | none =>
      show alook (jsInsert a k₁ v₁) k = _
      rw [alook_jsInsert]
      by_cases hk : k₁ = k
      · rw [if_pos hk, if_pos hk]
      · rw [if_neg hk, if_neg hk]

theorem lookupLast_eq_none {α : Type _} (b : List (Key × α)) (k : Key)
    (h : k ∉ b.map Prod.fst) : lookupLast b k = none := by
  induction b with
  | nil => rfl
  | cons p rest ih =>
    obtain ⟨a, v⟩ := p
    simp only [List.map_cons, List.mem_cons, not_or] at h
    rw [lookupLast_cons, ih h.2, if_neg (fun hh : a = k => h.1 hh.symm)]

theorem alook_eq_none {α : Type _} (b : List (Key × α)) (k : Key)
    (h : k ∉ b.map Prod.fst) : alook b k = none := by
  induction b with
  | nil => rfl
  | cons p rest ih =>
    obtain ⟨a, v⟩ := p
    simp only [List.map_cons, List.mem_cons, not_or] at h
    rw [alook_cons, ih h.2, if_neg (fun hh : a = k => h.1 hh.symm)]

theorem mem_of_alook_isSome {α : Type _} (b : List (Key × α)) (k : Key)
    (h : (alook b k).isSome) : k ∈ b.map Prod.fst := by
  by_contra hmem
  rw [alook_eq_none b k hmem] at h
  simp at h

theorem lookupLast_eq_alook {α : Type _} (b : List (Key × α)) (k : Key)
    (h : (b.map Prod.fst).Nodup) : lookupLast b k = alook b k := by
  induction b with
  | nil => rfl
  | cons p rest ih =>
    obtain ⟨a, v⟩ := p
    simp only [List.map_cons, List.nodup_cons] at h
    by_cases hk : a = k
    · have hkn : k ∉ rest.map Prod.fst := by
        rw [← hk]
        exact h.1
      rw [lookupLast_cons, lookupLast_eq_none rest k hkn, alook_cons]
      simp only [if_pos hk]
    · rw [lookupLast_cons, ih h.2, alook_cons]
      simp only [if_neg hk]
      cases alook rest k <;> rfl

theorem lookupLast_isSome_of_alook_isSome {α : Type _} (b : List (Key × α)) (k : Key)
    (h : (alook b k).isSome) : (lookupLast b k).isSome := by
  induction b with
  | nil => rw [alook_nil] at h; exact absurd h (by simp)
  | cons p rest ih =>
    obtain ⟨x, y⟩ := p
    rw [lookupLast_cons]
    by_cases hx : x = k
    · cases lookupLast rest k <;> simp [hx]
    · rw [alook_cons, if_neg hx] at h
      cases hr : lookupLast rest k with
      | some v => simp
      | none =>
        have := ih h
        rw [hr] at this
        exact absurd this (by simp)

theorem alook_jsSpread_isSome_right {α : Type _} (a b : List (Key × α)) (k : Key)
    (h : (alook b k).isSome) : (alook (jsSpread a b) k).isSome := by
  rw [alook_jsSpread]
  have hl := lookupLast_isSome_of_alook_isSome b k h
  cases hv : lookupLast b k with
  | some v => simp
  | none => rw [hv] at hl; exact absurd hl (by simp)

/-! Concrete fixtures, drawn from the starwars example shipped with the
repository, used to exercise the theorems on closed inputs. -/

def tyString : GQLType := .scalar "String"

def tyID : GQLType := .scalar "ID"

def noFieldConfig : FieldConfig := ⟨none, none, none⟩

def noInputConfig : InputFieldConfig := ⟨.undefined, none, none⟩

def characterProto : Target :=
  ⟨"Character", [], [], some "A character in the Star Wars Trilogy",
   [("id", "The id of the character.")], [("id", "This is no longer used")]⟩

def idThunk : FieldThunk := ⟨.direct tyID, noFieldConfig, characterProto, "id"⟩

/-! The claims. -/

/-- C2: applying `Field` (respectively `InputField`) to a property whose name
is already in the class's pending field map throws the duplicate-field error
naming the field and the class; applying it to a fresh name does not throw
and appends exactly one thunk under that name. -/
theorem field_decorator_duplicate_check
    (type itype : TypeRef) (fc : FieldConfig) (ic : InputFieldConfig)
    (target : Target) (key : Key)
    (fields : List (Key × FieldThunk)) (ifields : List (Key × InputFieldThunk)) :
    ((alook fields key).isSome →
      Field type fc target key fields = .error (dupFieldMsg key target.name))
  ∧ (alook fields key = none →
      Field type fc target key fields = .ok (fields ++ [(key, ⟨type, fc, target, key⟩)]))
  ∧ ((alook ifields key).isSome →
      InputField itype ic target key ifields = .error (dupFieldMsg key target.name))
  ∧ (alook ifields key = none →
      InputField itype ic target key ifields
        = .ok (ifields ++ [(key, ⟨itype, ic, target, key⟩)])) := by
  refine ⟨fun h => ?_, fun h => ?_, fun h => ?_, fun h => ?_⟩
  · rw [Field, if_pos h]
  · rw [Field, h]
    rfl
  · rw [InputField, if_pos h]
  · rw [InputField, h]
    rfl

/-- Witness for C2 on the starwars `Character.id` field: a fresh name is
recorded as one pending thunk, redefining it throws. -/
theorem field_decorator_duplicate_check_witness :
    Field (.direct tyID) noFieldConfig characterProto "id" []
      = .ok [("id", idThunk)]
  ∧ Field (.direct tyString) noFieldConfig characterProto "id" [("id", idThunk)]
      = .error "Field id is already defined in Character."
  ∧ InputField (.direct tyID) noInputConfig characterProto "id" []
      = .ok [("id", ⟨.direct tyID, noInputConfig, characterProto, "id"⟩)]
  ∧ InputField (.direct tyID) noInputConfig characterProto "id"
        [("id", ⟨.direct tyID, noInputConfig, characterProto, "id"⟩)]
      = .error "Field id is already defined in Character." := by
  have h₁ := (field_decorator_duplicate_check (.direct tyID) (.direct tyID)
    noFieldConfig noInputConfig characterProto "id" [] []).2.1 rfl
  have h₂ := (field_decorator_duplicate_check (.direct tyString) (.direct tyID)
    noFieldConfig noInputConfig characterProto "id" [("id", idThunk)] []).1 rfl
  have h₃ := (field_decorator_duplicate_check (.direct tyID) (.direct tyID)
    noFieldConfig noInputConfig characterProto "id" [] []).2.2.2 rfl
  have h₄ := (field_decorator_duplicate_check (.direct tyID) (.direct tyID)
    noFieldConfig noInputConfig characterProto "id" []
    [("id", ⟨.direct tyID, noInputConfig, characterProto, "id"⟩)]).2.2.1 rfl
  exact ⟨h₁, h₂, h₃, h₄⟩

/-- C6: `Field` performs no type resolution or validation at decoration time:
its only possible error is the duplicate-field one, any type reference — even
one not resolvable — is accepted and stored as an unevaluated thunk, and type
errors (such as an unresolvable forward reference) surface only when the
thunk is invoked during class-level mounting. -/
theorem field_decoration_defers_type_errors
    (type : TypeRef) (fc : FieldConfig) (target : Target) (key : Key)
    (fields : List (Key × FieldThunk)) :
    (∀ e, Field type fc target key fields = .error e →
        (alook fields key).isSome ∧ e = dupFieldMsg key target.name)
  ∧ (alook fields key = none →
      Field type fc target key fields = .ok (fields ++ [(key, ⟨type, fc, target, key⟩)]))
  ∧ (∀ reg n, alook reg n = none →
      invokeFieldThunk reg ⟨.cls n, fc, target, key⟩
        = .error ("Cannot get GraphQL type of " ++ n)) := by
  refine ⟨fun e he => ?_, fun h => ?_, fun reg n hn => ?_⟩
  · by_cases h : (alook fields key).isSome
    · rw [Field, if_pos h] at he
      injection he with h₂
      exact ⟨h, h₂.symm⟩
    · rw [Field, if_neg h] at he
      exact absurd he (by simp)
  · rw [Field, h]
    rfl
  · rw [invokeFieldThunk,
        show getGraphQLType reg (.cls n)
          = .error ("Cannot get GraphQL type of " ++ n) by
        rw [getGraphQLType, hn]]

/-- Witness for C6: decorating with a forward reference to the not yet
registered class `Human` succeeds, and the stored thunk fails only when
invoked against a registry that still lacks `Human`. -/
theorem field_decoration_defers_type_errors_witness :
    Field (.cls "Human") noFieldConfig characterProto "friend" []
      = .ok [("friend", ⟨.cls "Human", noFieldConfig, characterProto, "friend"⟩)]
  ∧ invokeFieldThunk [] ⟨.cls "Human", noFieldConfig, characterProto, "friend"⟩
      = .error "Cannot get GraphQL type of Human" := by
  have h := field_decoration_defers_type_errors (.cls "Human") noFieldConfig
    characterProto "friend" []
  exact ⟨h.2.1 rfl, h.2.2 [] "Human" rfl⟩

/-- C3: an argument supplied as an `Argument`-style `{type, description,
defaultValue}` record is mounted with the record's type and description, but
its `defaultValue` is not carried over — the thunk body builds
`extra = {description: arg.description}` only, so the mounted config's
`defaultValue` is absent even though the record supplied one.  An argument
supplied as a bare type is mounted with only the resolved type, as
claimed. -/
theorem argument_record_defaultValue_dropped :
    resolveArg [] "episode"
        (Argument (.direct tyString) (some "the episode") (some (.str "JEDI")))
      = .ok ⟨tyString, some "the episode", none⟩
  ∧ resolveArg [] "id" (.bare (.direct tyID)) = .ok ⟨tyID, none, none⟩ :=
  ⟨rfl, rfl⟩

theorem resolveArgs_ok_of_all (reg : Registry) (l : List (Key × ArgDecl))
    (h : ∀ p ∈ l, ∃ m, resolveArg reg p.1 p.2 = .ok m) :
    ∃ ms, resolveArgs reg l = .ok ms := by
  induction l with
  | nil => exact ⟨[], rfl⟩
  | cons p rest ih =>
    obtain ⟨m, hm⟩ := h p (List.mem_cons_self p rest)
    obtain ⟨ms, hms⟩ := ih (fun q hq => h q (List.mem_cons_of_mem p hq))
    refine ⟨(p.1, m) :: ms, ?_⟩
    rw [show resolveArgs reg (p :: rest)
          = (match resolveArg reg p.1 p.2 with
             | .error e => .error e
             | .ok m₂ =>
               match resolveArgs reg rest with
               | .error e => .error e
               | .ok ms₂ => .ok ((p.1, m₂) :: ms₂)) by
          cases p
          rfl,
        hm, hms]

theorem resolveArgs_error_at (reg : Registry) (pre post : List (Key × ArgDecl))
    (k : Key) (a : ArgDecl) (e : String)
    (hpre : ∀ p ∈ pre, ∃ m, resolveArg reg p.1 p.2 = .ok m)
    (ha : resolveArg reg k a = .error e) :
    resolveArgs reg (pre ++ (k, a) :: post) = .error e := by
  induction pre with
  | nil =>
    rw [List.nil_append, resolveArgs, ha]
  | cons p rest ih =>
    obtain ⟨m, hm⟩ := hpre p (List.mem_cons_self p rest)
    rw [List.cons_append,
        show resolveArgs reg (p :: (rest ++ (k, a) :: post))
          = (match resolveArg reg p.1 p.2 with
             | .error e₂ => .error e₂
             | .ok m₂ =>
               match resolveArgs reg (rest ++ (k, a) :: post) with
               | .error e₂ => .error e₂
               | .ok ms₂ => .ok ((p.1, m₂) :: ms₂)) by
          cases p
          rfl,
        hm, ih (fun q hq => hpre q (List.mem_cons_of_mem p hq))]

theorem resolveArg_ok_of_input (reg : Registry) (k : Key) (a : ArgDecl)
    (ta : GQLType) (hta : getGraphQLType reg a.argType = .ok ta)
    (hin : isInputType ta = true) :
    ∃ m, resolveArg reg k a = .ok m := by
  unfold resolveArg
  rw [hta]
  dsimp only
  rw [if_pos hin]
  cases a with
  | record t d dv => exact ⟨⟨ta, d, none⟩, rfl⟩
  | bare t => exact ⟨⟨ta, none, none⟩, rfl⟩

/-- C4: mounting a `Field` whose declared type does not resolve to an output
type throws `Type is not output`; mounting an `InputField` whose declared
type does not resolve to an input type throws `Type is not input`; mounting a
`Field` one of whose arguments resolves to a non-input type throws the error
naming that argument key (the first such argument, the earlier ones having
resolved to input types); and when the field type and every argument type are
of the right kind, no such error is raised. -/
theorem mounting_type_kind_errors (reg : Registry) (th : FieldThunk)
    (ith : InputFieldThunk) :
    (∀ t, getGraphQLType reg th.type = .ok t → isOutputType t = false →
        invokeFieldThunk reg th = .error "Type is not output")
  ∧ (∀ t, getGraphQLType reg ith.type = .ok t → isInputType t = false →
        invokeInputFieldThunk reg ith = .error "Type is not input")
  ∧ (∀ t pre k a post ta, getGraphQLType reg th.type = .ok t →
        isOutputType t = true →
        th.config.args.getD [] = pre ++ (k, a) :: post →
        (∀ p ∈ pre, ∃ m, resolveArg reg p.1 p.2 = .ok m) →
        getGraphQLType reg a.argType = .ok ta → isInputType ta = false →
        invokeFieldThunk reg th = .error (argNotInputMsg k a.argType))
  ∧ (∀ t, getGraphQLType reg th.type = .ok t → isOutputType t = true →
        (∀ p ∈ th.config.args.getD [],
          ∃ ta, getGraphQLType reg p.2.argType = .ok ta ∧ isInputType ta = true) →
        ∃ m, invokeFieldThunk reg th = .ok m)
  ∧ (∀ t, getGraphQLType reg ith.type = .ok t → isInputType t = true →
        ∃ m, invokeInputFieldThunk reg ith = .ok m) := by
  refine ⟨fun t ht hout => ?_, fun t ht hin => ?_,
    fun t pre k a post ta ht hout hargs hpre hta hin => ?_,
    fun t ht hout hargs => ?_, fun t ht hin => ?_⟩
  · unfold invokeFieldThunk
    rw [ht]
    dsimp only
    rw [if_neg (by rw [hout]; exact Bool.false_ne_true)]
  · unfold invokeInputFieldThunk
    rw [ht]
    dsimp only
    rw [if_neg (by rw [hin]; exact Bool.false_ne_true)]
  · have ha : resolveArg reg k a = .error (argNotInputMsg k a.argType) := by
      unfold resolveArg
      rw [hta]
      dsimp only
      rw [if_neg (by rw [hin]; exact Bool.false_ne_true)]
    unfold invokeFieldThunk
    rw [ht]
    dsimp only
    rw [if_pos hout, hargs,
        resolveArgs_error_at reg pre post k a (argNotInputMsg k a.argType) hpre ha]
  · obtain ⟨ms, hms⟩ := resolveArgs_ok_of_all reg (th.config.args.getD [])
      (fun p hp => by
        obtain ⟨ta, hta, htain⟩ := hargs p hp
        exact resolveArg_ok_of_input reg p.1 p.2 ta hta htain)
    refine ⟨⟨t, ms, getDescription th.target th.key,
      getDeprecationReason th.target th.key,
      mkResolver (alook th.target.props th.key)⟩, ?_⟩
    unfold invokeFieldThunk
    rw [ht]
    dsimp only
    rw [if_pos hout, hms]
  · refine ⟨⟨t, jsOrS ith.config.description (getDescription ith.target ith.key),
      jsOrS ith.config.deprecationReason (getDeprecationReason ith.target ith.key),
      jsOr ith.config.defaultValue (propToVal (alook ith.target.props ith.key))⟩, ?_⟩
    unfold invokeInputFieldThunk
    rw [ht]
    dsimp only
    rw [if_pos hin]

def tyHuman : GQLType := .object "Human" none [] []

def tyInputOnly : GQLType := .inputObject "HumanInput" none []

/-- Witness for C4: a field typed by an input object throws `Type is not
output`, an input field typed by an object throws `Type is not input`, a
field argument typed by an object throws the error naming the argument key,
and well-kinded declarations mount without error. -/
theorem mounting_type_kind_errors_witness :
    invokeFieldThunk [] ⟨.direct tyInputOnly, noFieldConfig, characterProto, "id"⟩
      = .error "Type is not output"
  ∧ invokeInputFieldThunk [] ⟨.direct tyHuman, noInputConfig, characterProto, "id"⟩
      = .error "Type is not input"
  ∧ invokeFieldThunk []
        ⟨.direct tyString, ⟨some [("episode", .bare (.direct tyHuman))], none, none⟩,
         characterProto, "hero"⟩
      = .error (argNotInputMsg "episode" (.direct tyHuman))
  ∧ (∃ m, invokeFieldThunk []
        ⟨.direct tyString, ⟨some [("episode", .bare (.direct tyID))], none, none⟩,
         characterProto, "hero"⟩ = .ok m)
  ∧ (∃ m, invokeInputFieldThunk []
        ⟨.direct tyID, noInputConfig, characterProto, "id"⟩ = .ok m) := by
  refine ⟨?_, ?_, ?_, ?_, ?_⟩
  · exact (mounting_type_kind_errors []
      ⟨.direct tyInputOnly, noFieldConfig, characterProto, "id"⟩
      ⟨.direct tyHuman, noInputConfig, characterProto, "id"⟩).1 tyInputOnly rfl rfl
  · exact (mounting_type_kind_errors []
      ⟨.direct tyInputOnly, noFieldConfig, characterProto, "id"⟩
      ⟨.direct tyHuman, noInputConfig, characterProto, "id"⟩).2.1 tyHuman rfl rfl
  · exact (mounting_type_kind_errors []
      ⟨.direct tyString, ⟨some [("episode", .bare (.direct tyHuman))], none, none⟩,
       characterProto, "hero"⟩
      ⟨.direct tyHuman, noInputConfig, characterProto, "id"⟩).2.2.1 tyString []
      "episode" (.bare (.direct tyHuman)) [] tyHuman rfl rfl rfl
      (fun p hp => absurd hp (List.not_mem_nil p)) rfl rfl
  · exact (mounting_type_kind_errors []
      ⟨.direct tyString, ⟨some [("episode", .bare (.direct tyID))], none, none⟩,
       characterProto, "hero"⟩
      ⟨.direct tyHuman, noInputConfig, characterProto, "id"⟩).2.2.2.1 tyString rfl rfl
      (fun p hp => by
        have hp₂ : p = ("episode", ArgDecl.bare (.direct tyID)) :=
          List.mem_singleton.mp hp
        rw [hp₂]
        exact ⟨tyID, rfl, rfl⟩)
  · exact (mounting_type_kind_errors []
      ⟨.direct tyInputOnly, noFieldConfig, characterProto, "id"⟩
      ⟨.direct tyID, noInputConfig, characterProto, "id"⟩).2.2.2.2 tyID rfl rfl

theorem invokeFieldThunk_resolve (reg : Registry) (th : FieldThunk)
    (m : MountedField GQLType) (hok : invokeFieldThunk reg th = .ok m) :
    m.resolve = mkResolver (alook th.target.props th.key) := by
  unfold invokeFieldThunk at hok
  cases hg : getGraphQLType reg th.type with
  | error e => rw [hg] at hok; exact absurd hok (by simp)
  | ok t =>
    rw [hg] at hok
    dsimp only at hok
    by_cases hout : isOutputType t = true
    · rw [if_pos hout] at hok
      cases hargs : resolveArgs reg (th.config.args.getD []) with
      | error e => rw [hargs] at hok; exact absurd hok (by simp)
      | ok ms =>
        rw [hargs] at hok
        injection hok with h
        rw [← h]
    · rw [if_neg hout] at hok
      exact absurd hok (by simp)

/-- C10: when `target[key]` is a function, the mounted field's resolver
invokes it with `this` bound to the resolution root and arguments
(args, context, info), returning its result; when it is not a function, the
mounted resolver is the wrapped library's `defaultFieldResolver`. -/
theorem field_resolver_binding (reg : Registry) (th : FieldThunk)
    (m : MountedField GQLType) (hok : invokeFieldThunk reg th = .ok m) :
    (∀ f, alook th.target.props th.key = some (.fn f) →
        m.resolve = .custom (fun root args context info => f root args context info)
      ∧ ∀ d root args context info,
          runResolver d m.resolve root args context info = f root args context info)
  ∧ ((∀ f, alook th.target.props th.key ≠ some (.fn f)) →
        m.resolve = .dflt
      ∧ ∀ d root args context info,
          runResolver d m.resolve root args context info = d root args context info) := by
  have hres := invokeFieldThunk_resolve reg th m hok
  constructor
  · intro f hf
    rw [hres, hf]
    exact ⟨rfl, fun d root args context info => rfl⟩
  · intro hnf
    have hd : m.resolve = .dflt := by
      rw [hres]
      cases hp : alook th.target.props th.key with
      | none => rfl
      | some pv =>
        cases pv with
        | val v => rfl
        | fn f => exact absurd hp (hnf f)
    rw [hd]
    exact ⟨rfl, fun d root args context info => rfl⟩

def heroFn : JSVal → JSVal → JSVal → JSVal → JSVal :=
  fun _ args _ _ => args

def queryProto : Target :=
  ⟨"Query", [("hero", .fn heroFn), ("title", .val (.str "sw"))], [], none, [], []⟩

def heroThunk : FieldThunk := ⟨.direct tyString, noFieldConfig, queryProto, "hero"⟩

def titleThunk : FieldThunk := ⟨.direct tyString, noFieldConfig, queryProto, "title"⟩

/-- Witness for C10: the mounted resolver of a method-backed field returns
the method's result (here the args value), and the resolver of a plain-value
field is the library default. -/
theorem field_resolver_binding_witness :
    (∃ m, invokeFieldThunk [] heroThunk = .ok m
      ∧ runResolver (fun root _ _ _ => root) m.resolve
          (.str "root") (.str "args") .undefined .undefined = .str "args")
  ∧ (∃ m, invokeFieldThunk [] titleThunk = .ok m ∧ m.resolve = .dflt) := by
  constructor
  · refine ⟨⟨tyString, [], none, none,
      .custom (fun root args context info => heroFn root args context info)⟩, rfl, ?_⟩
    have h := (field_resolver_binding [] heroThunk
      ⟨tyString, [], none, none,
        .custom (fun root args context info => heroFn root args context info)⟩ rfl).1
      heroFn rfl
    rw [h.2 (fun root _ _ _ => root) (.str "root") (.str "args") .undefined .undefined]
    rfl
  · refine ⟨⟨tyString, [], none, none, .dflt⟩, rfl, ?_⟩
    exact ((field_resolver_binding [] titleThunk
      ⟨tyString, [], none, none, .dflt⟩ rfl).2
      (fun f hf => by simp [alook, titleThunk, queryProto] at hf)).1

theorem alook_jsSpread_some {α : Type _} (a b : List (Key × α)) (k : Key) (v : α)
    (h : lookupLast b k = some v) : alook (jsSpread a b) k = some v := by
  have h₂ := alook_jsSpread a b k
  rw [h] at h₂
  exact h₂

theorem alook_jsSpread_none {α : Type _} (a b : List (Key × α)) (k : Key)
    (h : lookupLast b k = none) : alook (jsSpread a b) k = alook a k := by
  have h₂ := alook_jsSpread a b k
  rw [h] at h₂
  exact h₂

theorem alook_jsSpread_isSome_left {α : Type _} (a b : List (Key × α)) (k : Key)
    (h : (alook a k).isSome) : (alook (jsSpread a b) k).isSome := by
  rw [alook_jsSpread]
  cases hv : lookupLast b k with
  | some v => exact rfl
  | none => exact h

theorem alook_foldl_spread_isSome (env : ClassEnv) (l : List TypeRef)
    (acc : List (Key × FieldThunk)) (k : Key)
    (h : (alook acc k).isSome ∨ ∃ i ∈ l, (alook (getFieldsRef env i) k).isSome) :
    (alook (l.foldl (fun acc i => jsSpread acc (getFieldsRef env i)) acc) k).isSome := by
  induction l generalizing acc with
  | nil =>
    rcases h with h | ⟨i, hi, _⟩
    · exact h
    · exact absurd hi (List.not_mem_nil i)
  | cons j rest ih =>
    rw [List.foldl_cons]
    apply ih
    rcases h with h | ⟨i, hi, hsome⟩
    · exact Or.inl (alook_jsSpread_isSome_left _ _ k h)
    · rcases List.mem_cons.mp hi with hij | hi₂
      · exact Or.inl (alook_jsSpread_isSome_right acc (getFieldsRef env j) k
          (hij ▸ hsome))
      · exact Or.inr ⟨i, hi₂, hsome⟩

/-- C1: the field map `ObjectType` builds the external object type from is
the inherited interface field maps, merged in list order, overlaid by the
fields declared on the class itself: a class field under an inherited name
overrides the inherited one, a name the class does not declare falls back to
the merged interface maps, and every inherited field is present in the
result. -/
theorem objectType_merges_interface_fields
    (env : ClassEnv) (opts : ObjectTypeConfig) (target : Target) (k : Key)
    (hnodup : ((getFields env target).map Prod.fst).Nodup) :
    ((alook (getFields env target) k).isSome →
        alook (objectFieldMap env opts target) k = alook (getFields env target) k)
  ∧ (alook (getFields env target) k = none →
        alook (objectFieldMap env opts target) k = alook (allInterfaceFields env opts) k)
  ∧ (∀ i ∈ opts.interfaces.getD [], (alook (getFieldsRef env i) k).isSome →
        (alook (objectFieldMap env opts target) k).isSome) := by
  have hll := lookupLast_eq_alook (getFields env target) k hnodup
  refine ⟨fun h => ?_, fun h => ?_, fun i hi hsome => ?_⟩
  · cases hv : alook (getFields env target) k with
    | none => rw [hv] at h; exact absurd h (by simp)
    | some v =>
      rw [objectFieldMap]
      exact alook_jsSpread_some _ _ k v (hll.trans hv)
  · rw [objectFieldMap]
    exact alook_jsSpread_none _ _ k (hll.trans h)
  · have hall : (alook (allInterfaceFields env opts) k).isSome :=
      alook_foldl_spread_isSome env (opts.interfaces.getD []) [] k
        (Or.inr ⟨i, hi, hsome⟩)
    exact alook_jsSpread_isSome_left _ _ k hall

def humanProto : Target := ⟨"Human", [], [], none, [], []⟩

def nameThunk : FieldThunk := ⟨.direct tyString, noFieldConfig, characterProto, "name"⟩

def humanNameThunk : FieldThunk := ⟨.direct tyString, noFieldConfig, humanProto, "name"⟩

def homePlanetThunk : FieldThunk :=
  ⟨.direct tyString, noFieldConfig, humanProto, "homePlanet"⟩

def ifaceCharacter : GQLType := .interfaceT "Character" none []

def env₁ : ClassEnv :=
  ⟨[("Character", ifaceCharacter), ("NotIface", tyHuman)],
   [("Character", [("id", idThunk), ("name", nameThunk)]),
    ("Human", [("name", humanNameThunk), ("homePlanet", homePlanetThunk)])],
   []⟩

def optsGood : ObjectTypeConfig := ⟨none, none, some [.cls "Character"]⟩

def optsBad : ObjectTypeConfig := ⟨none, none, some [.cls "NotIface"]⟩

/-- Witness for C1, in the starwars shape: `Human` redeclares `name`, so its
own thunk wins; `id` is only inherited from `Character` and is present in
the merged map. -/
theorem objectType_merges_interface_fields_witness :
    alook (objectFieldMap env₁ optsGood humanProto) "name" = some humanNameThunk
  ∧ alook (objectFieldMap env₁ optsGood humanProto) "id" = some idThunk := by
  have h₁ := (objectType_merges_interface_fields env₁ optsGood humanProto "name"
    (by decide)).1 rfl
  have h₂ := (objectType_merges_interface_fields env₁ optsGood humanProto "id"
    (by decide)).2.1 rfl
  exact ⟨h₁, h₂⟩

theorem resolveInterfaces_cons (reg : Registry) (j : TypeRef) (rest : List TypeRef) :
    resolveInterfaces reg (j :: rest)
      = match getGraphQLType reg j with
        | .error e => .error e
        | .ok t =>
          if isInterfaceType t then
            match resolveInterfaces reg rest with
            | .error e => .error e
            | .ok ts => .ok (t :: ts)
          else .error "Provided interface is not valid" := rfl

theorem resolveInterfaces_bad (reg : Registry) (l : List TypeRef)
    (hall : ∀ i ∈ l, ∃ t, getGraphQLType reg i = .ok t)
    (hbad : ∃ i ∈ l, ∃ t, getGraphQLType reg i = .ok t ∧ isInterfaceType t = false) :
    resolveInterfaces reg l = .error "Provided interface is not valid" := by
  induction l with
  | nil =>
    rcases hbad with ⟨i, hi, _⟩
    exact absurd hi (List.not_mem_nil i)
  | cons j rest ih =>
    obtain ⟨tj, htj⟩ := hall j (List.mem_cons_self j rest)
    rw [resolveInterfaces_cons, htj]
    dsimp only
    by_cases hj : isInterfaceType tj = true
    · rw [if_pos hj]
      have hrest : resolveInterfaces reg rest = .error "Provided interface is not valid" := by
        apply ih (fun q hq => hall q (List.mem_cons_of_mem j hq))
        rcases hbad with ⟨i, hi, t, ht, hnt⟩
        rcases List.mem_cons.mp hi with hij | hi₂
        · exfalso
          rw [hij, htj] at ht
          injection ht with h₂
          rw [← h₂] at hnt
          exact Bool.noConfusion (hj.symm.trans hnt)
        · exact ⟨i, hi₂, t, ht, hnt⟩
      rw [hrest]
    · rw [if_neg hj]

theorem resolveInterfaces_ok (reg : Registry) (l : List TypeRef)
    (hall : ∀ i ∈ l, ∃ t, getGraphQLType reg i = .ok t ∧ isInterfaceType t = true) :
    ∃ ts, resolveInterfaces reg l = .ok ts
      ∧ ∀ i ∈ l, ∀ t, getGraphQLType reg i = .ok t → t ∈ ts := by
  induction l with
  | nil => exact ⟨[], rfl, fun i hi => absurd hi (List.not_mem_nil i)⟩
  | cons j rest ih =>
    obtain ⟨tj, htj, hij⟩ := hall j (List.mem_cons_self j rest)
    obtain ⟨ts, hts, hmem⟩ := ih (fun q hq => hall q (List.mem_cons_of_mem j hq))
    refine ⟨tj :: ts, ?_, ?_⟩
    · rw [resolveInterfaces_cons, htj]
      dsimp only
      rw [if_pos hij, hts]
    · intro i hi t ht
      rcases List.mem_cons.mp hi with h | h
      · rw [h, htj] at ht
        injection ht with h₂
        rw [← h₂]
        exact List.mem_cons_self tj ts
      · exact List.mem_cons_of_mem tj (hmem i h t ht)

/-- C5: when an entry of `opts.interfaces` has a registered external type
that is not an interface type, `ObjectType` throws `Provided interface is
not valid` and registers nothing; when every entry resolves to an interface
type, the validation passes and all the resolved interface types appear in
the interfaces list of the object type the decorator registers. -/
theorem objectType_interface_validation
    (env : ClassEnv) (opts : ObjectTypeConfig) (target : Target) :
    ((∀ i ∈ opts.interfaces.getD [], ∃ t, getGraphQLType env.reg i = .ok t) →
     (∃ i ∈ opts.interfaces.getD [],
        ∃ t, getGraphQLType env.reg i = .ok t ∧ isInterfaceType t = false) →
     ObjectType env opts target = .error "Provided interface is not valid")
  ∧ ((∀ i ∈ opts.interfaces.getD [],
        ∃ t, getGraphQLType env.reg i = .ok t ∧ isInterfaceType t = true) →
     ∃ ts, resolveInterfaces env.reg (opts.interfaces.getD []) = .ok ts
       ∧ (∀ i ∈ opts.interfaces.getD [],
            ∀ t, getGraphQLType env.reg i = .ok t → t ∈ ts)
       ∧ ∀ mounted, mountFields env.reg (objectFieldMap env opts target) = .ok mounted →
           ObjectType env opts target
             = .ok (setGraphQLType env.reg target.name
                      (.object (jsOrName opts.name target.name)
                               (jsOrS opts.description target.classDescription)
                               ts mounted),
                    target)) := by
  constructor
  · intro hall hbad
    unfold ObjectType
    rw [resolveInterfaces_bad env.reg (opts.interfaces.getD []) hall hbad]
  · intro hall
    obtain ⟨ts, hts, hmem⟩ := resolveInterfaces_ok env.reg (opts.interfaces.getD []) hall
    refine ⟨ts, hts, hmem, fun mounted hm => ?_⟩
    unfold ObjectType
    rw [hts]
    dsimp only
    rw [hm]

def mountedIdField : MountedField GQLType :=
  ⟨tyID, [], some "The id of the character.", some "This is no longer used", .dflt⟩

def mountedStringField : MountedField GQLType := ⟨tyString, [], none, none, .dflt⟩

def mountedHuman : List (Key × MountedField GQLType) :=
  [("id", mountedIdField), ("name", mountedStringField),
   ("homePlanet", mountedStringField)]

/-- Witness for C5: declaring `Human` with the object-typed `NotIface` as an
interface throws, declaring it with the interface `Character` succeeds and
puts the resolved interface type into the registered object type. -/
theorem objectType_interface_validation_witness :
    ObjectType env₁ optsBad humanProto = .error "Provided interface is not valid"
  ∧ ObjectType env₁ optsGood humanProto
      = .ok (setGraphQLType env₁.reg "Human"
               (.object "Human" none [ifaceCharacter] mountedHuman),
             humanProto) := by
  constructor
  · exact (objectType_interface_validation env₁ optsBad humanProto).1
      (fun i hi => by
        have h₂ : i = TypeRef.cls "NotIface" := List.mem_singleton.mp hi
        rw [h₂]
        exact ⟨tyHuman, rfl⟩)
      ⟨.cls "NotIface", List.mem_singleton.mpr rfl, tyHuman, rfl, rfl⟩
  · obtain ⟨ts, hts, hmem, hrun⟩ :=
      (objectType_interface_validation env₁ optsGood humanProto).2
      (fun i hi => by
        have h₂ : i = TypeRef.cls "Character" := List.mem_singleton.mp hi
        rw [h₂]
        exact ⟨ifaceCharacter, rfl, rfl⟩)
    have hts₂ : Except.ok (ε := String) ts = .ok [ifaceCharacter] := hts.symm.trans rfl
    injection hts₂ with h₃
    rw [h₃] at hrun
    exact hrun mountedHuman rfl

/-- C7: each class decorator, when it does not throw, returns the decorated
constructor itself and its only state effect is the single `setGraphQLType`
write associating that class with the newly constructed external type. -/
theorem decorators_return_class_and_register_once
    (env : ClassEnv) (oopts : ObjectTypeConfig) (iopts : InterfaceTypeConfig)
    (nopts : InputObjectTypeConfig) (eopts : EnumTypeConfig) (reg : Registry)
    (target : Target) :
    (∀ reg₂ tgt, ObjectType env oopts target = .ok (reg₂, tgt) →
        tgt = target ∧ ∃ T, reg₂ = setGraphQLType env.reg target.name T)
  ∧ (∀ reg₂ tgt, InterfaceType env iopts target = .ok (reg₂, tgt) →
        tgt = target ∧ ∃ T, reg₂ = setGraphQLType env.reg target.name T)
  ∧ (∀ reg₂ tgt, InputObjectType env nopts target = .ok (reg₂, tgt) →
        tgt = target ∧ ∃ T, reg₂ = setGraphQLType env.reg target.name T)
  ∧ (∀ reg₂ tgt, EnumType reg eopts target = (reg₂, tgt) →
        tgt = target ∧ ∃ T, reg₂ = setGraphQLType reg target.name T) := by
  refine ⟨fun reg₂ tgt h => ?_, fun reg₂ tgt h => ?_, fun reg₂ tgt h => ?_,
    fun reg₂ tgt h => ?_⟩
  · unfold ObjectType at h
    cases hri : resolveInterfaces env.reg (oopts.interfaces.getD []) with
    | error e => rw [hri] at h; exact absurd h (by simp)
    | ok ifaces =>
      rw [hri] at h
      dsimp only at h
      cases hm : mountFields env.reg (objectFieldMap env oopts target) with
      | error e => rw [hm] at h; exact absurd h (by simp)
      | ok mounted =>
        rw [hm] at h
        injection h with h₂
        rw [Prod.mk.injEq] at h₂
        exact ⟨h₂.2.symm, ⟨_, h₂.1.symm⟩⟩
  · unfold InterfaceType at h
    cases hm : mountFields env.reg (getFields env target) with
    | error e => rw [hm] at h; exact absurd h (by simp)
    | ok mounted =>
      rw [hm] at h
      injection h with h₂
      rw [Prod.mk.injEq] at h₂
      exact ⟨h₂.2.symm, ⟨_, h₂.1.symm⟩⟩
  · unfold InputObjectType at h
    cases hm : mountInputFields env.reg (getInputFields env target) with
    | error e => rw [hm] at h; exact absurd h (by simp)
    | ok mounted =>
      rw [hm] at h
      injection h with h₂
      rw [Prod.mk.injEq] at h₂
      exact ⟨h₂.2.symm, ⟨_, h₂.1.symm⟩⟩
  · unfold EnumType at h
    rw [Prod.mk.injEq] at h
    exact ⟨h.2.symm, ⟨_, h.1.symm⟩⟩

def episodeTarget : Target :=
  ⟨"Episode", [],
   [("length", .num 0), ("name", .str "Episode"), ("prototype", .undefined),
    ("NEWHOPE", .num 4), ("EMPIRE", .num 5), ("JEDI", .num 6)],
   some "The description",
   [("NEWHOPE", "Released in 1977."), ("EMPIRE", "Released in 1980."),
    ("JEDI", "Released in 1983.")],
   []⟩

def mountedCharacter : List (Key × MountedField GQLType) :=
  [("id", mountedIdField), ("name", mountedStringField)]

/-- Witness for C7: all four decorators, run on the starwars classes, return
the decorated class and extend the registry by exactly the one
`setGraphQLType` write. -/
theorem decorators_return_class_and_register_once_witness :
    (humanProto = humanProto
      ∧ ∃ T, setGraphQLType env₁.reg "Human"
               (.object "Human" none [ifaceCharacter] mountedHuman)
             = setGraphQLType env₁.reg "Human" T)
  ∧ (characterProto = characterProto
      ∧ ∃ T, setGraphQLType env₁.reg "Character"
               (.interfaceT "Character" (some "A character in the Star Wars Trilogy")
                 mountedCharacter)
             = setGraphQLType env₁.reg "Character" T)
  ∧ (humanProto = humanProto
      ∧ ∃ T, setGraphQLType env₁.reg "Human" (.inputObject "Human" none [])
             = setGraphQLType env₁.reg "Human" T)
  ∧ (episodeTarget = episodeTarget
      ∧ ∃ T, setGraphQLType [] "Episode"
               (.enumT "Episode" (some "The description") (enumValues episodeTarget))
             = setGraphQLType [] "Episode" T) := by
  have h := decorators_return_class_and_register_once env₁ optsGood ⟨none, none⟩
    ⟨none, none⟩ ⟨none, none⟩ [] humanProto
  have h₂ := decorators_return_class_and_register_once env₁ optsGood ⟨none, none⟩
    ⟨none, none⟩ ⟨none, none⟩ [] characterProto
  have h₃ := decorators_return_class_and_register_once env₁ optsGood ⟨none, none⟩
    ⟨none, none⟩ ⟨none, none⟩ [] episodeTarget
  exact ⟨h.1 _ _ rfl, h₂.2.1 _ _ rfl, h.2.2.1 _ _ rfl, h₃.2.2.2 _ _ rfl⟩

theorem keys_map_self {α : Type _} (g : Key → α) (l : List Key) :
    (l.map (fun x => (x, g x))).map Prod.fst = l := by
  induction l with
  | nil => rfl
  | cons a rest ih => rw [List.map_cons, List.map_cons, ih]

theorem alook_map_self {α : Type _} (g : Key → α) (l : List Key) (n : Key)
    (h : n ∈ l) : alook (l.map (fun x => (x, g x))) n = some (g n) := by
  induction l with
  | nil => exact absurd h (List.not_mem_nil n)
  | cons a rest ih =>
    rw [List.map_cons, alook_cons]
    by_cases ha : a = n
    · rw [if_pos ha, ha]
    · rcases List.mem_cons.mp h with h₂ | h₂
      · exact absurd h₂.symm ha
      · rw [if_neg ha]
        exact ih h₂

/-- C9: the enum registered by `EnumType` carries exactly the class's own
static properties minus the plain-class ones (`length`, `name`,
`prototype`), each value holding the static property's value and its
per-property description and deprecation metadata; the enum is named
`opts.name` when a (non-empty) one is given, the class's name otherwise. -/
theorem enumType_static_values (reg : Registry) (opts : EnumTypeConfig)
    (target : Target) :
    (EnumType reg opts target).1
      = setGraphQLType reg target.name
          (.enumT (jsOrName opts.name target.name)
                  (jsOrS opts.description target.classDescription)
                  (enumValues target))
  ∧ (∀ n, n ∈ (enumValues target).map Prod.fst ↔
        (n ∈ target.statics.map Prod.fst ∧ ¬ n ∈ BaseClassProperties))
  ∧ (∀ n ∈ getStaticProperties target.statics,
        alook (enumValues target) n
          = some ⟨(alook target.statics n).getD .undefined,
                  getDescription target n, getDeprecationReason target n⟩)
  ∧ (∀ s, opts.name = some s → s ≠ "" → jsOrName opts.name target.name = s)
  ∧ (opts.name = none → jsOrName opts.name target.name = target.name) := by
  refine ⟨rfl, fun n => ?_, fun n hn => ?_, fun s hs hne => ?_, fun h => ?_⟩
  · rw [enumValues, keys_map_self, getStaticProperties]
    simp [List.mem_filter, BaseClassProperties]
  · rw [enumValues]
    exact alook_map_self _ _ n hn
  · rw [hs]
    show (if s = "" then target.name else s) = s
    rw [if_neg hne]
  · rw [h]
    rfl

/-- Witness for C9 on the starwars `Episode` enum: `length`, `name` and
`prototype` are excluded, `NEWHOPE` carries value 4 and its description
metadata, and the naming fallback behaves as claimed. -/
theorem enumType_static_values_witness :
    (EnumType [] ⟨none, none⟩ episodeTarget).1
      = [("Episode", .enumT "Episode" (some "The description")
            (enumValues episodeTarget))]
  ∧ ("NEWHOPE" ∈ (enumValues episodeTarget).map Prod.fst
       ∧ ¬ "NEWHOPE" ∈ BaseClassProperties)
  ∧ ¬ "prototype" ∈ (enumValues episodeTarget).map Prod.fst
  ∧ alook (enumValues episodeTarget) "NEWHOPE"
      = some ⟨.num 4, some "Released in 1977.", none⟩
  ∧ jsOrName (some "TheEpisode") "Episode" = "TheEpisode" := by
  have h := enumType_static_values [] ⟨none, none⟩ episodeTarget
  refine ⟨h.1, ⟨(h.2.1 "NEWHOPE").mpr ⟨by decide, by decide⟩, by decide⟩, ?_, ?_, ?_⟩
  · intro hmem
    exact absurd ((h.2.1 "prototype").mp hmem).2 (by decide)
  · exact h.2.2.1 "NEWHOPE" (by decide)
  · exact (enumType_static_values [] ⟨some "TheEpisode", none⟩ episodeTarget).2.2.2.1
      "TheEpisode" rfl (by decide)

def tyQuery : GQLType := .object "Query" none [] []

def starwarsLib : WrappedLib :=
  ⟨fun _ => "schema { query: Query }", fun _ q => .str q⟩

/-- C8: the schema object's `toString()` is exactly the wrapped library's
printer applied to the assembled schema, and `execute(queryString)` is
exactly the wrapped library's executor run on that same schema and query
string. -/
theorem schema_delegates_to_library (lib : WrappedLib) (reg : Registry)
    (cfg : SchemaConfig) (s : GQLSchema) (_hs : schemaAssemble reg cfg = .ok s) :
    schemaToString lib s = lib.printSchema s
  ∧ ∀ q, schemaExecute lib s q = lib.execute s q :=
  ⟨rfl, fun _ => rfl⟩

/-- Witness for C8 with a concrete one-type registry and executor. -/
theorem schema_delegates_to_library_witness :
    schemaToString starwarsLib ⟨tyQuery, none⟩
      = starwarsLib.printSchema ⟨tyQuery, none⟩
  ∧ schemaExecute starwarsLib ⟨tyQuery, none⟩ "{ hero { id } }"
      = starwarsLib.execute ⟨tyQuery, none⟩ "{ hero { id } }" := by
  have h := schema_delegates_to_library starwarsLib [("Query", tyQuery)]
    ⟨.cls "Query", none⟩ ⟨tyQuery, none⟩ rfl
  exact ⟨h.1, h.2 "{ hero { id } }"⟩

end Graphene
